import Mathlib

/-!
Shallow embedding of the request-dispatch core of the `slack-web-api` Deno client
(`src/WebClient.ts`, `src/retry-policies.ts`): the option serializer, the result
builder, the rate-limit header parser, the single-request attempt classification,
the retry loop, the cursor paginator, and the bounded-concurrency request queue.
-/

namespace SlackWebApi

/-! ## Option values and the serializer (`serializeApiCallOptions`) -/

/-- A value of the options mapping passed to `apiCall`. `undefined`/`null` are
explicit constructors because the serializer drops them. Binary content is a
`Blob` (no name) or a `File` (a `Blob` with a `name`); file contents are byte
lists. Nested structures are represented by their `JSON.stringify` image, which
the serializer treats as an opaque string. -/
inductive OptValue where
  | vUndefined
  | vNull
  | vString (s : String)
  | vNumber (n : Int)
  | vBool (b : Bool)
  | vBlob (content : List Nat)
  | vFile (name : String) (content : List Nat)
  | vJson (stringified : String)
deriving Repr, DecidableEq

/-- The options mapping: entries in insertion order, as `Object.entries` yields them. -/
abbrev Options := List (String × OptValue)

/-- `value instanceof Blob` in the source (`File` extends `Blob`). -/
def OptValue.isBinary : OptValue → Bool
  | .vBlob _ => true
  | .vFile _ _ => true
  | _ => false

/-- A flattened value: either a string or the binary value kept as-is. -/
inductive SerializedValue where
  | str (s : String)
  | blob (content : List Nat)
  | file (name : String) (content : List Nat)
deriving Repr, DecidableEq

/-- The body of one `flatMap` callback in `serializeApiCallOptions`:
`undefined`/`null` map to `[]` (here `none`); binary values pass through;
strings/numbers/booleans are `toString`-ed; everything else is the
`JSON.stringify` image. -/
def serializeEntryValue : OptValue → Option SerializedValue
  | .vUndefined => none
  | .vNull => none
  | .vBlob c => some (.blob c)
  | .vFile n c => some (.file n c)
  | .vString s => some (.str s)
  | .vNumber n => some (.str (toString n))
  | .vBool b => some (.str (if b then "true" else "false"))
  | .vJson j => some (.str j)

/-- The `Object.entries(options).flatMap(...)` pipeline of
`serializeApiCallOptions`, keeping input order. -/
def flattenOptions : Options → List (String × SerializedValue)
  | [] => []
  | (k, v) :: rest =>
    match serializeEntryValue v with
    | none => flattenOptions rest
    | some sv => (k, sv) :: flattenOptions rest

/-- The `containsBinaryData` flag, set while flattening whenever a value is a `Blob`. -/
def containsBinaryData (options : Options) : Bool :=
  options.any fun p => p.2.isBinary

/-- Splitting a character list on a separator character, grouping the pieces
between occurrences (the character-level core of `String.splitOn`). -/
def splitOnSep (sep : Char) : List Char → List (List Char)
  | [] => [[]]
  | c :: rest =>
    match splitOnSep sep rest with
    | [] => if c = sep then [[], []] else [[c]]
    | g :: gs => if c = sep then [] :: g :: gs else (c :: g) :: gs

/-- `basename` from the Deno `std/path` module restricted to what the source
uses: the last non-empty `/`-separated component of the path. -/
def basename (path : String) : String :=
  (((splitOnSep '/' path.data).map String.mk).filter (fun s => s ≠ "")).getLastD path

/-- One entry of a `FormData` object: a plain field or a named file part. -/
inductive FormEntry where
  | field (name : String) (value : String)
  | file (name : String) (filename : String) (content : List Nat)
deriving Repr, DecidableEq

/-- The filename the WHATWG `FormData.append(name, blobValue)` overload gives a
`Blob` that is not a `File`: the platform wraps it in a `File` named `"blob"`. -/
def defaultBlobFilename : String := "blob"

/-- The repository's `defaultFilename` constant (`'Untitled'`); in this Deno
port it is declared but never passed to `FormData.append`. -/
def defaultFilename : String := "Untitled"

/-- One step of the `flattened.reduce(...)` building the `FormData`: a `File`
is appended with `basename(value.name)` as its filename; any other `Blob` is
appended without a filename, so the platform names it `"blob"`; strings become
plain fields. -/
def formAppend : String × SerializedValue → FormEntry
  | (k, .file n c) => .file k (basename n) c
  | (k, .blob c) => .file k defaultBlobFilename c
  | (k, .str s) => .field k s

/-- The full `FormData` built in the binary branch of `serializeApiCallOptions`. -/
def buildForm (flattened : List (String × SerializedValue)) : List FormEntry :=
  flattened.map formAppend

/-! URL-encoding per `URLSearchParams.toString()`
(`application/x-www-form-urlencoded` serialization). -/

/-- Hexadecimal digit for `n < 16`, uppercase as the URL serializer emits. -/
def hexDigit (n : Nat) : Char :=
  if n < 10 then Char.ofNat (48 + n) else Char.ofNat (55 + n)

/-- UTF-8 encoding of a Unicode scalar value, as a list of byte values. -/
def utf8Bytes (n : Nat) : List Nat :=
  if n < 0x80 then [n]
  else if n < 0x800 then [0xC0 + n / 64, 0x80 + n % 64]
  else if n < 0x10000 then [0xE0 + n / 4096, 0x80 + (n / 64) % 64, 0x80 + n % 64]
  else [0xF0 + n / 262144, 0x80 + (n / 4096) % 64, 0x80 + (n / 64) % 64, 0x80 + n % 64]

/-- Percent-encoding of one byte. -/
def percentByte (b : Nat) : String :=
  String.mk ['%', hexDigit (b / 16), hexDigit (b % 16)]

/-- Whether a code point is emitted verbatim by the
`application/x-www-form-urlencoded` serializer: ASCII alphanumerics and
`*`, `-`, `.`, `_`. -/
def isFormUnreserved (c : Char) : Bool :=
  (c ≥ 'a' && c ≤ 'z') || (c ≥ 'A' && c ≤ 'Z') || (c ≥ '0' && c ≤ '9') ||
    c = '*' || c = '-' || c = '.' || c = '_'

/-- Form-url-encoding of one string: space becomes `+`, unreserved code points
pass through, everything else is percent-encoded byte-wise as UTF-8. -/
def formUrlEncodeString (s : String) : String :=
  s.data.foldl
    (fun acc c =>
      if c = ' ' then acc ++ "+"
      else if isFormUnreserved c then acc.push c
      else acc ++ String.join ((utf8Bytes c.toNat).map percentByte))
    ""

/-- `new URLSearchParams(pairs).toString()`. -/
def urlEncode (pairs : List (String × String)) : String :=
  String.intercalate "&"
    (pairs.map fun p => formUrlEncodeString p.1 ++ "=" ++ formUrlEncodeString p.2)

/-- String projection of a flattened value for the non-binary branch; in the
source the cast `flattened as [string, string][]` is ensured by
`containsBinaryData` being false. -/
def SerializedValue.asString : SerializedValue → String
  | .str s => s
  | .blob _ => ""
  | .file _ _ => ""

/-- The serialized request body: a multipart form or a URL-encoded string. -/
inductive SerializedBody where
  | form (entries : List FormEntry)
  | urlencoded (s : String)
deriving Repr, DecidableEq

/-- Outgoing HTTP headers as an association list (first match wins on reads). -/
abbrev Headers := List (String × String)

/-- `Headers.get`: header names are case-insensitive, and the `Headers`
object normalizes them, so the model stores each header under the exact
(lowercase) name the source reads; an absent header reads as `none`
(JavaScript `null`). -/
def headersGet (hs : Headers) (name : String) : Option String :=
  (hs.find? fun p => p.1 = name).map Prod.snd

/-- Setting `headers[name] = value` on the mutable headers object. -/
def headersSet (hs : Headers) (name value : String) : Headers :=
  (hs.filter fun p => p.1 ≠ name) ++ [(name, value)]

/-- The field name of a form entry. -/
def FormEntry.entryName : FormEntry → String
  | .field n _ => n
  | .file n _ _ => n

/-- What a form entry's value reads as once assigned into the headers object:
the field value for plain fields; a `File` object stored where a string is
expected displays as `"[object File]"`. -/
def FormEntry.headerValue : FormEntry → String
  | .field _ v => v
  | .file _ _ _ => "[object File]"

/-- The source's `for (const [header, value] of form.entries()) headers[header] = value`
loop, which copies the form's own entries into the outgoing headers object. -/
def copyFormEntriesIntoHeaders (entries : List FormEntry) (headers : Headers) : Headers :=
  entries.foldl (fun hs e => headersSet hs e.entryName e.headerValue) headers

/-- `serializeApiCallOptions`: flatten the options, dropping `undefined`/`null`
entries; with any binary value build a multipart `FormData` and copy its
entries into the headers object; otherwise set
`Content-Type: application/x-www-form-urlencoded` and return the URL-encoded
string of the flattened pairs. Returns the body together with the mutated
headers object. -/
def serializeApiCallOptions (options : Options) (headers : Headers) :
    SerializedBody × Headers :=
  let flattened := flattenOptions options
  if containsBinaryData options then
    let form := buildForm flattened
    (.form form, copyFormEntriesIntoHeaders form headers)
  else
    (.urlencoded (urlEncode (flattened.map fun p => (p.1, p.2.asString))),
     headersSet headers "Content-Type" "application/x-www-form-urlencoded")

/-! ## Call results and the result builder (`buildResult`) -/

/-- The `response_metadata` sub-object of a `WebAPICallResult`. -/
structure ResponseMetadata where
  warnings : Option (List String) := none
  next_cursor : Option String := none
  scopes : Option (List String) := none
  acceptedScopes : Option (List String) := none
  retryAfter : Option Int := none
  messages : Option (List String) := none
deriving Repr, DecidableEq

/-- A normalized Call Result: `ok` flag, optional `error` code, optional
metadata, and the remaining body fields abstracted as string pairs. -/
structure WebAPICallResult where
  ok : Bool
  error : Option String := none
  response_metadata : Option ResponseMetadata := none
  extra : List (String × String) := []
deriving Repr, DecidableEq

/-- A raw HTTP response as axiod delivers it: status, response headers
(`Headers`-style, `get` returning `null` when absent), and the JSON-parsed body. -/
structure AxiodResponse where
  status : Nat
  headers : Headers
  data : WebAPICallResult
deriving Repr, DecidableEq

/-- JavaScript `parseInt(s, 10)`: skip leading whitespace, read an optional
sign, then the longest run of decimal digits; `NaN` (here `none`) when no
digit follows. -/
def parseIntBase10 (s : String) : Option Int :=
  let cs := s.data.dropWhile Char.isWhitespace
  let signAndRest : Bool × List Char :=
    match cs with
    | '-' :: rest => (true, rest)
    | '+' :: rest => (false, rest)
    | _ => (false, cs)
  let ds := signAndRest.2.takeWhile Char.isDigit
  if ds.isEmpty then none
  else
    let n : Nat := ds.foldl (fun acc c => acc * 10 + (c.toNat - 48)) 0
    some (if signAndRest.1 then -(n : Int) else (n : Int))

/-- `parseRetryHeaders`: read the `retry-after` response header and `parseInt`
it in base 10. `Headers.get` yields `null` (not `undefined`) for an absent
header, so the source's `!== undefined` guard always passes and `parseInt`
then receives the coerced string `"null"`, which parses to `NaN`; hence an
absent header also yields `undefined` (`none`). -/
def parseRetryHeaders (response : AxiodResponse) : Option Int :=
  parseIntBase10 ((headersGet response.headers "retry-after").getD "null")

/-- `s.trim().split(/\s*,\s*/)`: comma-separated list with surrounding
whitespace discarded. -/
def splitScopes (s : String) : List String :=
  (s.trim.splitOn ",").map String.trim

/-- `buildResult`: take the parsed body, replace an absent `response_metadata`
with `{}`, fold the `x-oauth-scopes` / `x-accepted-oauth-scopes` headers into
scope lists when they are non-empty strings, and record `retryAfter` when the
retry header parses. -/
def buildResult (response : AxiodResponse) : WebAPICallResult :=
  let data := response.data
  let md := data.response_metadata.getD {}
  let md :=
    match headersGet response.headers "x-oauth-scopes" with
    | some s => if s ≠ "" then { md with scopes := some (splitScopes s) } else md
    | none => md
  let md :=
    match headersGet response.headers "x-accepted-oauth-scopes" with
    | some s => if s ≠ "" then { md with acceptedScopes := some (splitScopes s) } else md
    | none => md
  let md :=
    match parseRetryHeaders response with
    | some retrySec => { md with retryAfter := some retrySec }
    | none => md
  { data with response_metadata := some md }

/-! ## Errors, the single-request attempt and the retry loop (`makeRequest`) -/

/-- The typed errors a call can fail with. `platform` is
`platformErrorFromResult` (remote `ok: false`), `http` is
`httpErrorFromResponse` (non-200/429 status), `rateLimited` is
`rateLimitedErrorWithDelay`, `retryHeaderInvalid` is the
`'Retry header did not contain a valid timeout.'` error, `rateLimitExceeded`
is the plain retryable `'A rate limit was exceeded.'` error. -/
inductive ApiError where
  | platform (error : Option String) (result : WebAPICallResult)
  | http (status : Nat) (response : AxiodResponse)
  | rateLimited (retrySec : Int)
  | retryHeaderInvalid
  | rateLimitExceeded
deriving Repr, DecidableEq

/-- Outcome of one attempt of the queued task inside `makeRequest`: a
successful response, an `AbortError`-wrapped failure (which defeats the retry
driver), or a plain failure (which the retry driver may retry). -/
inductive AttemptOutcome where
  | success (response : AxiodResponse)
  | abort (e : ApiError)
  | failure (e : ApiError)
deriving Repr, DecidableEq

/-- One attempt of the task in `makeRequest`, classifying the HTTP response it
received. Status 429: parse the retry header; with a valid wait time either
abort with a rate-limit error (`rejectRateLimitedCalls`) or pause the queue,
wait, resume and throw the plain retryable error; with no valid wait time
throw an `AbortError`. Any other non-200 status raises the fatal HTTP error
(`httpErrorFromResponse` lives in `src/errors.ts`, which is not included;
modelled from the spec: a non-200/429 status is an immediately-fatal — abort —
HTTP error carrying the status and the response). Status 200 succeeds. -/
def singleAttempt (rejectRateLimitedCalls : Bool) (response : AxiodResponse) :
    AttemptOutcome :=
  if response.status = 429 then
    match parseRetryHeaders response with
    | some retrySec =>
      if rejectRateLimitedCalls then .abort (.rateLimited retrySec)
      else .failure .rateLimitExceeded
    | none => .abort .retryHeaderInvalid
  else if response.status ≠ 200 then
    .abort (.http response.status response)
  else
    .success response

/-- Modelled from the spec: the Retry Driver (the external `p_retried`
dependency wrapping the task in `makeRequest`). An abort-tagged failure
immediately terminates retrying and propagates; any other failure is retried
until the policy's attempt budget (`retries` further attempts after the
first) is exhausted, after which the last failure propagates. Returns the
result together with the number of attempts made; `attempt i` is the HTTP
response the `i`-th attempt observes. -/
def runRetries (attempt : Nat → AttemptOutcome) :
    Nat → Nat → Except ApiError AxiodResponse × Nat
  | retriesLeft, attemptIndex =>
    match attempt attemptIndex with
    | .success r => (.ok r, attemptIndex + 1)
    | .abort e => (.error e, attemptIndex + 1)
    | .failure e =>
      match retriesLeft with
      | 0 => (.error e, attemptIndex + 1)
      | n + 1 => runRetries attempt n (attemptIndex + 1)

/-- `makeRequest`: run the queued task under the retry driver. The backend is
abstracted as `transport`, the response each attempt would observe. -/
def makeRequest (rejectRateLimitedCalls : Bool) (retries : Nat)
    (transport : Nat → AxiodResponse) : Except ApiError AxiodResponse × Nat :=
  runRetries (fun i => singleAttempt rejectRateLimitedCalls (transport i)) retries 0

/-- `apiCall`: make the request, normalize the response with `buildResult`,
and gate on the `ok` flag: a false flag raises `platformErrorFromResult`
(`src/errors.ts` is not included; modelled from the spec: a platform error
carrying the remote-reported error code and the full result); otherwise the
normalized result is returned. -/
def apiCall (rejectRateLimitedCalls : Bool) (retries : Nat)
    (transport : Nat → AxiodResponse) : Except ApiError WebAPICallResult :=
  match (makeRequest rejectRateLimitedCalls retries transport).1 with
  | .error e => .error e
  | .ok response =>
    let result := buildResult response
    if result.ok then .ok result
    else .error (.platform result.error result)

/-! ## Cursor pagination (`paginate`, `generatePages`, `paginationOptionsForNextPage`) -/

/-- Pagination options threaded between pages (`limit` and `cursor`). -/
structure CursorPaginationEnabled where
  limit : Option Int := none
  cursor : Option String := none
deriving Repr, DecidableEq

/-- The `defaultPageSize` constant (`200`). -/
def defaultPageSize : Int := 200

/-- `paginationOptionsForNextPage`: the next page's options when the previous
result's metadata carries a non-empty `next_cursor`, and `undefined` (`none`)
otherwise, which ends iteration. -/
def paginationOptionsForNextPage (previousResult : Option WebAPICallResult)
    (pageSize : Int) : Option CursorPaginationEnabled :=
  match previousResult with
  | some r =>
    match r.response_metadata with
    | some md =>
      match md.next_cursor with
      | some c =>
        if c ≠ "" then some { limit := some pageSize, cursor := some c } else none
      | none => none
    | none => none
  | none => none

/-- The `while` loop of the `generatePages` generator. Each iteration calls the
dispatcher — abstracted as `fetch`, a function of the current pagination
options — yields the result, and recomputes the pagination options from it;
the loop continues while they are defined. `fuel` bounds the unfolding (the
source loop may run forever on a backend that always returns a cursor). -/
def generatePagesAux (fetch : CursorPaginationEnabled → WebAPICallResult)
    (pageSize : Int) : CursorPaginationEnabled → Nat → List WebAPICallResult
  | _, 0 => []
  | paginationOptions, fuel + 1 =>
    let result := fetch paginationOptions
    match paginationOptionsForNextPage (some result) pageSize with
    | some nextOptions => result :: generatePagesAux fetch pageSize nextOptions fuel
    | none => [result]

/-- `generatePages`: the bare-mode page sequence, starting from `limit :=
pageSize` plus the caller's initial cursor when supplied. -/
def generatePages (fetch : CursorPaginationEnabled → WebAPICallResult)
    (pageSize : Int) (initialCursor : Option String) (fuel : Nat) :
    List WebAPICallResult :=
  generatePagesAux fetch pageSize { limit := some pageSize, cursor := initialCursor } fuel

/-- The `for await (const page of pageIterator)` loop of driven-mode
`paginate`: fold each page with the reducer, then test the stop predicate,
then advance the index. -/
def drivePages {A : Type} (shouldStop : WebAPICallResult → Bool)
    (pageReducer : Option A → WebAPICallResult → Nat → A) :
    List WebAPICallResult → A → Nat → A
  | [], accumulator, _ => accumulator
  | page :: rest, accumulator, index =>
    let acc := pageReducer (some accumulator) page index
    if shouldStop page then acc
    else drivePages shouldStop pageReducer rest acc (index + 1)

/-- Driven-mode `paginate`, consuming the pages the generator yields: the
first iteration is unrolled (the reducer's seed is `undefined`), the predicate
runs after each page's reducer application, and the current accumulator is
returned on a `true` predicate or exhaustion. The source assumes at least one
page; an empty sequence is `none`. -/
def paginateDriven {A : Type} (pages : List WebAPICallResult)
    (shouldStop : WebAPICallResult → Bool)
    (pageReducer : Option A → WebAPICallResult → Nat → A) : Option A :=
  match pages with
  | [] => none
  | firstPage :: rest =>
    let accumulator := pageReducer none firstPage 0
    if shouldStop firstPage then some accumulator
    else some (drivePages shouldStop pageReducer rest accumulator 1)

/-- Reference fold used to state what driven-mode pagination computes when
never stopped: fold the remaining pages in order with increasing indices. -/
def foldPages {A : Type} (pageReducer : Option A → WebAPICallResult → Nat → A) :
    List WebAPICallResult → A → Nat → A
  | [], accumulator, _ => accumulator
  | page :: rest, accumulator, index =>
    foldPages pageReducer rest (pageReducer (some accumulator) page index) (index + 1)

/-! ## The request queue (admission control) -/

/-- The `maxRequestConcurrency` default in the `WebClient` constructor. -/
def defaultMaxRequestConcurrency : Nat := 3

/-- Modelled from the spec: the Request Queue (the external `PQueue`
dependency, constructed with `concurrency = maxRequestConcurrency`): a
bounded-concurrency admission controller whose pending tasks wait in
insertion order, with pause/resume affecting only future task starts. -/
structure QueueState where
  concurrency : Nat
  running : Nat
  paused : Bool
  pending : List Nat
deriving Repr, DecidableEq

/-- The queue as the `WebClient` constructor creates it. -/
def initQueue (maxRequestConcurrency : Nat) : QueueState :=
  { concurrency := maxRequestConcurrency, running := 0, paused := false, pending := [] }

/-- Modelled from the spec: queue transitions. `enqueue` appends a task;
`start` admits the head of the pending list when a slot is free and the queue
is not paused; `finish` releases a slot; `pause`/`resume` toggle admission
without touching in-flight work. -/
inductive QueueStep : QueueState → QueueState → Prop where
  | enqueue (s : QueueState) (task : Nat) :
      QueueStep s { s with pending := s.pending ++ [task] }
  | start (s : QueueState) (task : Nat) (rest : List Nat) :
      s.pending = task :: rest → s.paused = false → s.running < s.concurrency →
      QueueStep s { s with pending := rest, running := s.running + 1 }
  | finish (s : QueueState) :
      0 < s.running → QueueStep s { s with running := s.running - 1 }
  | pause (s : QueueState) : QueueStep s { s with paused := true }
  | resume (s : QueueState) : QueueStep s { s with paused := false }

/-- States reachable from a given queue state by any interleaving of steps. -/
inductive QueueReachable (init : QueueState) : QueueState → Prop where
  | refl : QueueReachable init init
  | step {s t : QueueState} : QueueReachable init s → QueueStep s t →
      QueueReachable init t

/-! ## Theorems -/

/-- C2: For every raw HTTP response, the normalized Call Result produced by
`buildResult` has `response_metadata` present as an object (possibly empty),
even when the raw response body omitted it. -/
theorem buildResult_metadata_always_present (response : AxiodResponse) :
    ((buildResult response).response_metadata).isSome = true := rfl

/-- C1: `apiCall` resolves only with a result whose `ok` flag is true: a
normalized result with a false flag makes `apiCall` fail with a platform
error carrying the remote-reported error code and the full result, and every
successful return has `ok = true`. -/
theorem apiCall_resolves_only_ok :
    (∀ (reject : Bool) (retries : Nat) (transport : Nat → AxiodResponse)
       (r : WebAPICallResult),
       apiCall reject retries transport = Except.ok r → r.ok = true) ∧
    (∀ (reject : Bool) (retries : Nat) (transport : Nat → AxiodResponse)
       (response : AxiodResponse),
       (makeRequest reject retries transport).1 = Except.ok response →
       (buildResult response).ok = false →
       apiCall reject retries transport =
         Except.error (.platform (buildResult response).error (buildResult response))) := by
  constructor
  · intro reject retries transport r h
    unfold apiCall at h
    cases hm : (makeRequest reject retries transport).1 with
    | error e => rw [hm] at h; simp at h
    | ok response =>
      rw [hm] at h
      by_cases hok : (buildResult response).ok = true
      · simp only [hok, if_true] at h
        cases h
        exact hok
      · simp only [hok, if_false] at h
        simp at h
  · intro reject retries transport response hm hok
    unfold apiCall
    rw [hm]
    simp only [hok]
    simp

/-- Witness for C1: a 200 response with `ok: false` and error code
`invalid_auth` makes `apiCall` fail with the platform error. -/
theorem apiCall_resolves_only_ok_witness :
    apiCall false 10
        (fun _ => { status := 200, headers := [],
                    data := { ok := false, error := some "invalid_auth" } }) =
      Except.error (.platform (some "invalid_auth")
        { ok := false, error := some "invalid_auth",
          response_metadata := some {}, extra := [] }) :=
  apiCall_resolves_only_ok.2 false 10
    (fun _ => { status := 200, headers := [],
                data := { ok := false, error := some "invalid_auth" } })
    { status := 200, headers := [],
      data := { ok := false, error := some "invalid_auth" } }
    rfl rfl

/-- C3: an HTTP response whose status is neither 200 nor 429 makes the request
fail with the fatal HTTP error carrying the status and the response, after
exactly one attempt (the retry driver makes no further attempt). -/
theorem makeRequest_fatal_http_error (reject : Bool) (retries : Nat)
    (transport : Nat → AxiodResponse)
    (h200 : (transport 0).status ≠ 200) (h429 : (transport 0).status ≠ 429) :
    makeRequest reject retries transport =
      (Except.error (.http (transport 0).status (transport 0)), 1) := by
  have ha : singleAttempt reject (transport 0) =
      .abort (.http (transport 0).status (transport 0)) := by
    unfold singleAttempt
    rw [if_neg h429, if_pos h200]
  unfold makeRequest runRetries
  simp only [ha]

/-- Witness for C3: a 500 response is rejected as an HTTP error on the first
and only attempt. -/
theorem makeRequest_fatal_http_error_witness :
    makeRequest false 10
        (fun _ => { status := 500, headers := [], data := { ok := true } }) =
      (Except.error (.http 500 { status := 500, headers := [], data := { ok := true } }), 1) :=
  makeRequest_fatal_http_error false 10
    (fun _ => { status := 500, headers := [], data := { ok := true } })
    (by decide) (by decide)

/-- C6: on a 429 response the wait time is `parseInt(header, 10)` of the
`retry-after` header; an absent header also parses to `none`; and whenever no
valid wait time exists the attempt raises the abort (not retryable) failure. -/
theorem rate_limit_header_contract (reject : Bool) (response : AxiodResponse)
    (h429 : response.status = 429) :
    (∀ s, headersGet response.headers "retry-after" = some s →
      parseRetryHeaders response = parseIntBase10 s) ∧
    (headersGet response.headers "retry-after" = none →
      parseRetryHeaders response = none) ∧
    (parseRetryHeaders response = none →
      singleAttempt reject response = .abort .retryHeaderInvalid) := by
  refine ⟨?_, ?_, ?_⟩
  · intro s hs
    unfold parseRetryHeaders
    rw [hs]
    rfl
  · intro hn
    unfold parseRetryHeaders
    rw [hn]
    decide
  · intro hp
    unfold singleAttempt
    rw [if_pos h429, hp]

/-- Witness for C6: with the header absent, and with a malformed header, a 429
attempt aborts with the invalid-retry-header error. -/
theorem rate_limit_header_contract_witness :
    parseRetryHeaders { status := 429, headers := [], data := { ok := true } } = none ∧
    singleAttempt false { status := 429, headers := [], data := { ok := true } } =
      .abort .retryHeaderInvalid ∧
    singleAttempt true { status := 429, headers := [("retry-after", "soon")],
                         data := { ok := true } } = .abort .retryHeaderInvalid := by
  refine ⟨?_, ?_, ?_⟩
  · exact (rate_limit_header_contract false
      { status := 429, headers := [], data := { ok := true } } rfl).2.1 rfl
  · exact (rate_limit_header_contract false
      { status := 429, headers := [], data := { ok := true } } rfl).2.2 rfl
  · exact (rate_limit_header_contract true
      { status := 429, headers := [("retry-after", "soon")], data := { ok := true } }
      rfl).2.2 (by decide)

/-- Looking up a header just set on the headers object finds its value. -/
theorem headersGet_headersSet (hs : Headers) (name value : String) :
    headersGet (headersSet hs name value) name = some value := by
  unfold headersGet headersSet
  induction hs with
  | nil => simp [List.find?]
  | cons p rest ih =>
    by_cases hp : p.1 = name
    · simp [List.filter_cons, hp]
    · simp [List.filter_cons, hp, List.find?]

/-- C4: an options mapping with a binary value always serializes to a
multipart form body, never URL-encoding; one with no binary value serializes
to the URL-encoded string of its flattened entries and sets the
`Content-Type: application/x-www-form-urlencoded` header. -/
theorem serializer_encoding_selection (options : Options) (headers : Headers) :
    (containsBinaryData options = true ↔ ∃ p ∈ options, p.2.isBinary = true) ∧
    (containsBinaryData options = true →
      (serializeApiCallOptions options headers).1 =
        .form (buildForm (flattenOptions options))) ∧
    (containsBinaryData options = false →
      (serializeApiCallOptions options headers).1 =
        .urlencoded (urlEncode ((flattenOptions options).map fun p => (p.1, p.2.asString))) ∧
      headersGet (serializeApiCallOptions options headers).2 "Content-Type" =
        some "application/x-www-form-urlencoded") := by
  refine ⟨?_, ?_, ?_⟩
  · simp [containsBinaryData, List.any_eq_true]
  · intro h
    unfold serializeApiCallOptions
    simp only [h, if_true]
  · intro h
    unfold serializeApiCallOptions
    rw [if_neg (by simp [h])]
    exact ⟨rfl, headersGet_headersSet headers _ _⟩

/-- Witness for C4: a mapping with a `Blob` yields a form body; a mapping of
plain values yields the URL-encoded body plus the content-type header. -/
theorem serializer_encoding_selection_witness :
    (serializeApiCallOptions [("file", .vBlob [7]), ("t", .vString "x")] []).1 =
      .form [.file "file" defaultBlobFilename [7], .field "t" "x"] ∧
    (serializeApiCallOptions [("a", .vString "hi there"), ("n", .vNumber 3)] []).1 =
      .urlencoded "a=hi+there&n=3" ∧
    headersGet (serializeApiCallOptions [("a", .vString "hi there"), ("n", .vNumber 3)] []).2
      "Content-Type" = some "application/x-www-form-urlencoded" := by
  refine ⟨?_, ?_, ?_⟩
  · exact ((serializer_encoding_selection [("file", .vBlob [7]), ("t", .vString "x")] []).2.1
      (by decide)).trans (by decide)
  · exact ((serializer_encoding_selection [("a", .vString "hi there"), ("n", .vNumber 3)] []).2.2
      (by decide)).1.trans (by decide)
  · exact ((serializer_encoding_selection [("a", .vString "hi there"), ("n", .vNumber 3)] []).2.2
      (by decide)).2

/-- An options entry whose value flattens to `some` appears, flattened, in
the serializer's flattened entry list. -/
theorem mem_flattenOptions {options : Options} {k : String} {v : OptValue}
    {sv : SerializedValue} (hmem : (k, v) ∈ options)
    (hser : serializeEntryValue v = some sv) :
    (k, sv) ∈ flattenOptions options := by
  induction options with
  | nil => cases hmem
  | cons p rest ih =>
    obtain ⟨pk, pv⟩ := p
    rcases List.mem_cons.mp hmem with h | h
    · cases h
      simp only [flattenOptions, hser]
      exact List.mem_cons_self _ _
    · simp only [flattenOptions]
      cases hse : serializeEntryValue pv with
      | none => exact ih h
      | some sv' => exact List.mem_cons_of_mem _ (ih h)

/-- C5: in the multipart case every binary entry of the options mapping is
attached to the form as a named file — a `File` under the basename of its own
name, a plain `Blob` under the default filename token the platform supplies
when none is known. -/
theorem serializer_multipart_named_files (options : Options) (headers : Headers)
    (hbin : containsBinaryData options = true) :
    (serializeApiCallOptions options headers).1 =
      .form (buildForm (flattenOptions options)) ∧
    (∀ k c, (k, OptValue.vBlob c) ∈ options →
      FormEntry.file k defaultBlobFilename c ∈ buildForm (flattenOptions options)) ∧
    (∀ k n c, (k, OptValue.vFile n c) ∈ options →
      FormEntry.file k (basename n) c ∈ buildForm (flattenOptions options)) := by
  refine ⟨?_, ?_, ?_⟩
  · unfold serializeApiCallOptions
    rw [if_pos hbin]
  · intro k c hm
    exact List.mem_map_of_mem formAppend (mem_flattenOptions hm rfl)
  · intro k n c hm
    exact List.mem_map_of_mem formAppend (mem_flattenOptions hm rfl)

/-- Witness for C5: a named `File` is attached under its basename and an
anonymous `Blob` under the default filename token. -/
theorem serializer_multipart_named_files_witness :
    (serializeApiCallOptions [("up", .vFile "dir/a.png" [1, 2]), ("raw", .vBlob [3])] []).1 =
      .form [.file "up" "a.png" [1, 2], .file "raw" defaultBlobFilename [3]] ∧
    FormEntry.file "up" (basename "dir/a.png") [1, 2] ∈
      buildForm (flattenOptions [("up", .vFile "dir/a.png" [1, 2]), ("raw", .vBlob [3])]) ∧
    FormEntry.file "raw" defaultBlobFilename [3] ∈
      buildForm (flattenOptions [("up", .vFile "dir/a.png" [1, 2]), ("raw", .vBlob [3])]) := by
  refine ⟨?_, ?_, ?_⟩
  · exact ((serializer_multipart_named_files
      [("up", .vFile "dir/a.png" [1, 2]), ("raw", .vBlob [3])] [] (by decide)).1).trans
      (by decide)
  · exact (serializer_multipart_named_files
      [("up", .vFile "dir/a.png" [1, 2]), ("raw", .vBlob [3])] [] (by decide)).2.2
      "up" "dir/a.png" [1, 2] (by decide)
  · exact (serializer_multipart_named_files
      [("up", .vFile "dir/a.png" [1, 2]), ("raw", .vBlob [3])] [] (by decide)).2.1
      "raw" [3] (by decide)

/-- C10: the serializer omits exactly the `undefined`/`null` entries: the
flattened list is the input filtered of those and serialized entry-wise in
order, and both the multipart and the URL-encoded bodies are built from that
flattened list. -/
theorem serializer_omits_exactly_nullish (options : Options) (headers : Headers) :
    (flattenOptions options =
      options.filterMap fun p => (serializeEntryValue p.2).map fun sv => (p.1, sv)) ∧
    (∀ v : OptValue, serializeEntryValue v = none ↔ v = .vUndefined ∨ v = .vNull) ∧
    (containsBinaryData options = true →
      (serializeApiCallOptions options headers).1 =
        .form (buildForm (flattenOptions options))) ∧
    (containsBinaryData options = false →
      (serializeApiCallOptions options headers).1 =
        .urlencoded (urlEncode ((flattenOptions options).map fun p => (p.1, p.2.asString)))) := by
  refine ⟨?_, ?_, ?_, ?_⟩
  · induction options with
    | nil => rfl
    | cons p rest ih =>
      obtain ⟨pk, pv⟩ := p
      simp only [flattenOptions, List.filterMap_cons]
      cases hse : serializeEntryValue pv with
      | none => simpa using ih
      | some sv' => simpa using ih
  · intro v
    cases v <;> simp [serializeEntryValue]
  · intro h
    unfold serializeApiCallOptions
    rw [if_pos h]
  · intro h
    unfold serializeApiCallOptions
    rw [if_neg (by simp [h])]

/-- Witness for C10: the `null` and `undefined` entries are dropped and all
others kept, in order, in the URL-encoded body. -/
theorem serializer_omits_exactly_nullish_witness :
    flattenOptions [("a", .vString "x"), ("b", .vNull), ("c", .vUndefined), ("d", .vNumber 5)] =
      [("a", .str "x"), ("d", .str "5")] ∧
    (serializeApiCallOptions
        [("a", .vString "x"), ("b", .vNull), ("c", .vUndefined), ("d", .vNumber 5)] []).1 =
      .urlencoded "a=x&d=5" := by
  constructor
  · exact ((serializer_omits_exactly_nullish
      [("a", .vString "x"), ("b", .vNull), ("c", .vUndefined), ("d", .vNumber 5)] []).1).trans
      (by decide)
  · exact ((serializer_omits_exactly_nullish
      [("a", .vString "x"), ("b", .vNull), ("c", .vUndefined), ("d", .vNumber 5)] []).2.2.2
      (by decide)).trans (by decide)

/-- Unfolding the bare page generator along a trace of pagination options:
when each of the first `k` pages yields the next options and page `k` yields
none, the generator emits exactly the `k + 1` fetched pages in order. -/
theorem generatePagesAux_trace (fetch : CursorPaginationEnabled → WebAPICallResult)
    (pageSize : Int) :
    ∀ (k : Nat) (o : Nat → CursorPaginationEnabled) (fuel : Nat),
    (∀ j, j < k →
      paginationOptionsForNextPage (some (fetch (o j))) pageSize = some (o (j + 1))) →
    paginationOptionsForNextPage (some (fetch (o k))) pageSize = none →
    k < fuel →
    generatePagesAux fetch pageSize (o 0) fuel =
      (List.range (k + 1)).map fun j => fetch (o j) := by
  intro k
  induction k with
  | zero =>
    intro o fuel _ hlast hfuel
    cases fuel with
    | zero => exact absurd hfuel (by omega)
    | succ f =>
      simp only [generatePagesAux, hlast]
      simp [List.range_succ]
  | succ k ih =>
    intro o fuel hstep hlast hfuel
    cases fuel with
    | zero => exact absurd hfuel (by omega)
    | succ f =>
      simp only [generatePagesAux, hstep 0 (Nat.succ_pos k)]
      rw [ih (fun j => o (j + 1)) f
        (fun j hj => hstep (j + 1) (Nat.succ_lt_succ hj)) hlast
        (Nat.lt_of_succ_lt_succ hfuel)]
      simp [List.range_succ_eq_map, List.map_map, Function.comp, Nat.succ_eq_add_one]

/-- C7: the bare-mode paginator yields exactly one Call Result per dispatched
page, in page order, and iteration ends exactly with the first page whose
metadata carries no non-empty `next_cursor`: along a trace of `k + 1`
dispatched pages whose first `k` carry a next cursor and whose last does not,
it yields those `k + 1` results and terminates. -/
theorem generatePages_yields_all_pages
    (fetch : CursorPaginationEnabled → WebAPICallResult) (pageSize : Int)
    (initialCursor : Option String) (o : Nat → CursorPaginationEnabled)
    (k fuel : Nat)
    (h0 : o 0 = { limit := some pageSize, cursor := initialCursor })
    (hstep : ∀ j, j < k →
      paginationOptionsForNextPage (some (fetch (o j))) pageSize = some (o (j + 1)))
    (hlast : paginationOptionsForNextPage (some (fetch (o k))) pageSize = none)
    (hfuel : k < fuel) :
    generatePages fetch pageSize initialCursor fuel =
      (List.range (k + 1)).map fun j => fetch (o j) := by
  unfold generatePages
  rw [← h0]
  exact generatePagesAux_trace fetch pageSize k o fuel hstep hlast hfuel

/-- The concrete three-page backend for the C7 witness: the first call (no
cursor) answers with cursor `c2`, the `c2` call answers with cursor `c3`, and
the `c3` call answers with no cursor. -/
def fetchThreePages : CursorPaginationEnabled → WebAPICallResult := fun opts =>
  match opts.cursor with
  | none => { ok := true, response_metadata := some { next_cursor := some "c2" } }
  | some c =>
    if c = "c2" then { ok := true, response_metadata := some { next_cursor := some "c3" } }
    else { ok := true, response_metadata := some {} }

/-- The pagination-option trace of the three-page backend. -/
def optionsThreePages : Nat → CursorPaginationEnabled := fun j =>
  if j = 0 then { limit := some 200 }
  else if j = 1 then { limit := some 200, cursor := some "c2" }
  else { limit := some 200, cursor := some "c3" }

/-- Witness for C7: on the three-page backend, with pages 1–2 carrying a
non-empty `next_cursor` and page 3 carrying none, the bare paginator yields
exactly three results and then terminates. -/
theorem generatePages_yields_all_pages_witness :
    generatePages fetchThreePages 200 none 5 =
      [{ ok := true, response_metadata := some { next_cursor := some "c2" } },
       { ok := true, response_metadata := some { next_cursor := some "c3" } },
       { ok := true, response_metadata := some {} }] := by
  have h := generatePages_yields_all_pages fetchThreePages 200 none optionsThreePages
    2 5 (by decide)
    (by intro j hj
        interval_cases j
        · decide
        · decide)
    (by decide) (by omega)
  exact h.trans (by decide)

/-- `drivePages` with a predicate that never stops folds every remaining page
in order with increasing indices. -/
theorem drivePages_no_stop {A : Type}
    (pageReducer : Option A → WebAPICallResult → Nat → A) :
    ∀ (rest : List WebAPICallResult) (acc : A) (index : Nat),
    drivePages (fun _ => false) pageReducer rest acc index =
      foldPages pageReducer rest acc index := by
  intro rest
  induction rest with
  | nil => intro acc index; rfl
  | cons page tail ih =>
    intro acc index
    simp only [drivePages, foldPages, if_false]
    exact ih _ _

/-- C8: the driven-mode paginator folds each page with the reducer starting
from an undefined seed, tests the predicate once per page after that page's
reducer application, in page order, and returns the current accumulator as
soon as the predicate answers true — with a predicate true on the second page
the accumulator reflects exactly pages 1 and 2 — or when the page sequence is
exhausted, in which case every page has been folded. -/
theorem paginateDriven_contract {A : Type} :
    (∀ (p1 p2 : WebAPICallResult) (rest : List WebAPICallResult)
       (shouldStop : WebAPICallResult → Bool)
       (pageReducer : Option A → WebAPICallResult → Nat → A),
       shouldStop p1 = false → shouldStop p2 = true →
       paginateDriven (p1 :: p2 :: rest) shouldStop pageReducer =
         some (pageReducer (some (pageReducer none p1 0)) p2 1)) ∧
    (∀ (p1 : WebAPICallResult) (rest : List WebAPICallResult)
       (pageReducer : Option A → WebAPICallResult → Nat → A),
       paginateDriven (p1 :: rest) (fun _ => false) pageReducer =
         some (foldPages pageReducer rest (pageReducer none p1 0) 1)) := by
  constructor
  · intro p1 p2 rest shouldStop pageReducer h1 h2
    simp [paginateDriven, drivePages, h1, h2]
  · intro p1 rest pageReducer
    simp [paginateDriven]
    rw [drivePages_no_stop]

/-- Witness for C8: collecting pages with their indices, a predicate that
stops on the second page returns the accumulator holding exactly pages 1 and
2 with indices 0 and 1. -/
theorem paginateDriven_contract_witness :
    paginateDriven
        [{ ok := true, error := some "p1" }, { ok := true, error := some "p2" },
         { ok := true, error := some "p3" }]
        (fun r => r.error = some "p2")
        (fun acc page index => acc.getD [] ++ [(page.error, index)]) =
      some [(some "p1", 0), (some "p2", 1)] := by
  have h := paginateDriven_contract.1
    { ok := true, error := some "p1" } { ok := true, error := some "p2" }
    [{ ok := true, error := some "p3" }]
    (fun r => r.error = some "p2")
    (fun acc page index => acc.getD [] ++ [(page.error, index)])
    (by decide) (by decide)
  exact h.trans (by decide)

/-- Each queue step keeps the concurrency cap and preserves the in-flight
bound. -/
theorem queueStep_preserves {s t : QueueState} (h : QueueStep s t) :
    t.concurrency = s.concurrency ∧
    (s.running ≤ s.concurrency → t.running ≤ t.concurrency) := by
  cases h with
  | enqueue task => exact ⟨rfl, fun h => h⟩
  | start task rest hpend hpause hlt => exact ⟨rfl, fun _ => hlt⟩
  | finish hpos => exact ⟨rfl, fun h => by simp; omega⟩
  | pause => exact ⟨rfl, fun h => h⟩
  | resume => exact ⟨rfl, fun h => h⟩

/-- C9: with the queue built with `maxRequestConcurrency = N` (default 3), no
reachable state has more than `N` tasks in flight, and a task only ever
starts from the head of the pending list (FIFO insertion order), when the
queue is unpaused and a slot is free. -/
theorem queue_concurrency_bound :
    defaultMaxRequestConcurrency = 3 ∧
    (∀ (N : Nat) (s : QueueState), QueueReachable (initQueue N) s →
      s.running ≤ N ∧ s.concurrency = N) ∧
    (∀ (s t : QueueState), QueueStep s t → t.running = s.running + 1 →
      s.paused = false ∧ s.running < s.concurrency ∧
      ∃ task rest, s.pending = task :: rest ∧ t.pending = rest) := by
  refine ⟨rfl, ?_, ?_⟩
  · intro N s hreach
    induction hreach with
    | refl => exact ⟨Nat.zero_le N, rfl⟩
    | step hr hstep ih =>
      obtain ⟨hconc, hpres⟩ := queueStep_preserves hstep
      exact ⟨by rw [← ih.2, ← hconc]; exact hpres (ih.2 ▸ ih.1), hconc ▸ ih.2⟩
  · intro s t hstep hrun
    cases hstep with
    | enqueue task => exact absurd hrun (by simp)
    | start task rest hpend hpause hlt =>
      exact ⟨hpause, hlt, task, rest, hpend, rfl⟩
    | finish hpos => exact absurd hrun (by simp)
    | pause => exact absurd hrun (by simp)
    | resume => exact absurd hrun (by simp)

/-- Witness for C9: from an empty queue with the default cap of 3, after an
enqueue and a start the reached state has one task in flight, within the
bound. -/
theorem queue_concurrency_bound_witness :
    ({ concurrency := 3, running := 1, paused := false, pending := [] } :
      QueueState).running ≤ 3 :=
  (queue_concurrency_bound.2.1 3
    { concurrency := 3, running := 1, paused := false, pending := [] }
    (QueueReachable.step
      (QueueReachable.step QueueReachable.refl (QueueStep.enqueue (initQueue 3) 7))
      (QueueStep.start _ 7 [] rfl rfl (by decide)))).1

end SlackWebApi
